import Mathlib

/-!
# Verification of the zig-devel toolset fleet scanner and version checker

Shallow embedding of the core of the `zig-devel/toolset` repository:

* `src/zigdevel/cmd_libcheck.py` — `check_versioning` (version grammar,
  build-suffix stripping, the five-source consistency check);
* `src/zigdevel/cmd_scan.py` — `inspect_package` (skip rule, repository
  policy checks, freshness check), the clone synchronizer's git command
  sequences, and `run`'s cache phase and fail-fast scan loop;
* `src/zigdevel/github.py` — the `Repository` descriptor, `GitHub.__init__`,
  and the paginated `fetch_repos` directory client, together with the
  JSON serialization the cache phase writes (`json.dump` of `asdict`
  dictionaries).

Effects (subprocess invocations, HTTP responses, file contents) are passed
in explicitly: git invocations become command lists, the hosting API becomes
a function from page number to response, file reads become string inputs.
-/

set_option maxRecDepth 100000
set_option maxHeartbeats 1000000

namespace ZigDevel

/-! ## Character classes and Python `str.strip` -/

/-- The character class `[0-9]` of the regexes in `cmd_libcheck.py`. -/
def isDigitB (c : Char) : Bool := 48 ≤ c.toNat && c.toNat ≤ 57

/-- The character class `[1-9]`. -/
def isNonZeroDigitB (c : Char) : Bool := 49 ≤ c.toNat && c.toNat ≤ 57

/-- The whitespace characters Python's `str.strip()` removes. -/
def isPySpace (c : Char) : Bool :=
  c == ' ' || c == '\t' || c == '\n' || c == '\r' || c == '\x0b' || c == '\x0c'

/-- Python `str.strip()` on the character list: drop leading and trailing whitespace. -/
def trimL (cs : List Char) : List Char :=
  ((cs.dropWhile isPySpace).reverse.dropWhile isPySpace).reverse

/-- Python's `str.strip()`. -/
def pyStrip (s : String) : String := ⟨trimL s.data⟩

/-! ## The version-number grammar of `check_versioning`
`number_regex = "(0|[1-9][0-9]*)"` and
`version_regex = "^{N}\.{N}\.{N}-{N}$"` (cmd_libcheck.py lines 14-15). -/

/-- A character list is in the language of `(0|[1-9][0-9]*)` anchored on both
sides: `"0"`, or a digit sequence with no leading zero. -/
def isNumL : List Char → Bool
  | [] => false
  | [c] => isDigitB c
  | c :: cs => isNonZeroDigitB c && cs.all isDigitB

/-- The predicate `isNumL` on strings. -/
def isNumStr (s : String) : Bool := isNumL s.data

/-- Greedily consume the leading digit run; succeed when it is a valid
number.  Because numbers contain only digits and the grammar's separators
(`.`, `-`) are not digits, this greedy split is the only split the regex
engine could use, so the parser matches the regex exactly. -/
def parseNum (cs : List Char) : Option (List Char × List Char) :=
  if isNumL (cs.takeWhile isDigitB) then
    some (cs.takeWhile isDigitB, cs.dropWhile isDigitB)
  else none

/-- Whether `re.search(version_regex, s)` succeeds: the whole string matches
`^{N}\.{N}\.{N}-{N}$`. -/
def grammarL (cs : List Char) : Bool :=
  match parseNum cs with
  | some (_, '.' :: r1) =>
    match parseNum r1 with
    | some (_, '.' :: r2) =>
      match parseNum r2 with
      | some (_, '-' :: r3) => isNumL r3
      | _ => false
    | _ => false
  | _ => false

/-- The strict manifest version grammar of `check_versioning` (line 26). -/
def versionGrammar (s : String) : Bool := grammarL s.data

/-! ## Build-suffix stripping
`upstream_version = re.sub(f"-{number_regex}$", "", package_ref)`
(cmd_libcheck.py line 21).  The regex matches at the leftmost `-` whose
entire remainder is a valid number; the match runs to the end of the string
and is replaced by nothing. -/

/-- Python `re.sub("-(0|[1-9][0-9]*)$", "", ·)` on the character list. -/
def stripL : List Char → List Char
  | [] => []
  | c :: cs => if c == '-' && isNumL cs then [] else c :: stripL cs

/-- Derive the upstream version by removing the trailing `-{N}` build
suffix (no-op when no such suffix exists). -/
def stripBuildSuffix (s : String) : String := ⟨stripL s.data⟩

/-! ## README header extraction
`cat README.md | head -1 | sed -n 's/^# .*@v\([0-9.]*\).*/\1/p'`
(cmd_libcheck.py lines 59-61).  The line must start with `# `; the greedy
`.*` runs to the last `@v`; the capture takes the maximal `[0-9.]` run. -/

/-- The tail of the list after its last `@v` occurrence, if any. -/
def afterLastAtV : List Char → Option (List Char)
  | '@' :: 'v' :: rest =>
    match afterLastAtV rest with
    | some r => some r
    | none => some rest
  | _ :: cs => afterLastAtV cs
  | [] => none

/-- The sed extraction applied to the first README line: empty when the
line does not match the pattern (sed `-n` prints nothing). -/
def readmeHeaderVersion (line : String) : String :=
  match line.data with
  | '#' :: ' ' :: rest =>
    match afterLastAtV rest with
    | some tail => ⟨tail.takeWhile (fun c => isDigitB c || c == '.')⟩
    | none => ""
  | _ => ""

/-! ## Install-documentation grep
`grep -q "^zig fetch --save .*/archive/refs/tags/{package_ref}.tar.gz$"`
(cmd_libcheck.py lines 70-74).  In the interpolated pattern every `.` —
including those inside `package_ref` and `.tar.gz` — is a regex wildcard. -/

/-- One pattern character against one subject character: `.` matches any. -/
def charPatMatch (p c : Char) : Bool := p == '.' || p == c

/-- Match pattern and subject character-by-character, same length. -/
def patEq : List Char → List Char → Bool
  | [], [] => true
  | p :: ps, c :: cs => charPatMatch p c && patEq ps cs
  | _, _ => false

/-- Does the second list start with the first? -/
def startsWithL : List Char → List Char → Bool
  | [], _ => true
  | _ :: _, [] => false
  | p :: ps, c :: cs => p == c && startsWithL ps cs

/-- A README line matches the grep pattern: it starts with the literal
`zig fetch --save ` and, after that, `.*` runs greedily so the pattern
suffix must match the final characters of the line. -/
def installLineMatch (package_ref line : String) : Bool :=
  let startLit := "zig fetch --save ".data
  let pat := ("/archive/refs/tags/" ++ package_ref ++ ".tar.gz").data
  startsWithL startLit line.data &&
    (let rest := line.data.drop startLit.length
     decide (pat.length ≤ rest.length) && patEq pat (rest.drop (rest.length - pat.length)))

/-! ## `check_versioning` (cmd_libcheck.py lines 13-77)
Inputs stand for the effects the Python function performs:
`packageRefRaw` is the sed extraction from `build.zig.zon`, `gittagRaw` the
output of `git tag --sort=-authordate --merged=HEAD | head -1`,
`oldverVersion` the string at `data.upstream.version` in
`.github/oldver.json`, and `readme` the lines of `README.md`.
Each `exit(1)` becomes a distinct `CheckResult` error constructor; the
function short-circuits at the first failing comparison, in source order. -/

inductive CheckResult where
  | ok
  | invalidManifestVersion (package_ref : String)
  | referenceMismatch (package_ref reference : String)
  | tagMismatch (package_ref gittag_ref : String)
  | nvcheckerMismatch (upstream_version nvchecker : String)
  | readmeMismatch (upstream_version readme_version : String)
  | installDocMismatch
deriving DecidableEq, Repr

/-- The function `check_versioning(reference)` as a function of its file and subprocess
inputs.  `reference` is `args.reference`: `none` when the flag is absent;
Python's `if reference and ...` also treats the empty string as absent. -/
def check_versioning (reference : Option String) (packageRefRaw : String)
    (gittagRaw : String) (oldverVersion : String) (readme : List String) :
    CheckResult :=
  let package_ref := pyStrip packageRefRaw
  let upstream_version := pyStrip (stripBuildSuffix package_ref)
  if !versionGrammar package_ref then
    .invalidManifestVersion package_ref
  else if (match reference with
           | some r => r != "" && r != package_ref
           | none => false) then
    .referenceMismatch package_ref (reference.getD "")
  else
    let gittag_ref := pyStrip gittagRaw
    if gittag_ref != "" && gittag_ref != package_ref then
      .tagMismatch package_ref gittag_ref
    else if upstream_version != oldverVersion then
      .nvcheckerMismatch upstream_version oldverVersion
    else
      let readme_version := pyStrip (readmeHeaderVersion (readme.headD ""))
      if upstream_version != readme_version then
        .readmeMismatch upstream_version readme_version
      else if !readme.any (installLineMatch package_ref) then
        .installDocMismatch
      else
        .ok

/-! ## Repository descriptors (github.py lines 6-28) -/

/-- The `Repository` dataclass, field for field and in declaration order
(the order `dataclasses.asdict` and hence the cache serialization use). -/
structure Repository where
  name : String
  «private» : Bool
  archived : Bool
  is_template : Bool
  clone_url : String
  default_branch : String
  has_issues : Bool
  has_wiki : Bool
  has_pages : Bool
  has_projects : Bool
  has_discussions : Bool
  created_at : String
  updated_at : String
  open_issues_count : Nat
deriving DecidableEq, Repr

/-- The method `Repository.is_active` (github.py lines 27-28). -/
def Repository.is_active (r : Repository) : Bool := !r.«private» && !r.archived

/-! ## `inspect_package` (cmd_scan.py lines 25-75)
The git synchronization is modelled separately (`syncCommands`); here we
model the skip rule and the outcome: which exception, if any, the function
raises.  `nvcmpOutput` is the stdout of `nvcmp -c .nvchecker.toml` for this
repository's working copy. -/

inductive InspectOutcome where
  | skipped
  | ok
  | settingsError (reason : String)
  | outdated (reason : String)
deriving DecidableEq, Repr

/-- The `args.check_repository_settings` block (cmd_scan.py lines 51-68):
the first failing check raises `PkgSettingsException` with its reason
(the `must me` typo is the source's). -/
def settingsCheck (repo : Repository) : Option String :=
  if repo.default_branch != "main" then
    some ("Default branch must me 'main' not " ++ repo.default_branch)
  else if repo.is_template then
    some "Repository should not be a template"
  else if !repo.has_issues then
    some "Issues must be enabled"
  else if repo.has_wiki then
    some "Wiki must be disabled"
  else if repo.has_pages then
    some "Pages must be disabled"
  else if repo.has_projects then
    some "Projects must be disabled"
  else if repo.has_discussions then
    some "Discussions must be disabled"
  else
    none

/-- The function `inspect_package(args, gh, repo)` as a function of the repository, the
flags, the internal-repository exclusion set and the freshness tool's
output. -/
def inspect_package (internal_repositories : List String)
    (check_repository_settings check_updates : Bool) (repo : Repository)
    (nvcmpOutput : String) : InspectOutcome :=
  if !repo.is_active || internal_repositories.contains repo.name then
    .skipped
  else
    match (if check_repository_settings then settingsCheck repo else none) with
    | some reason => .settingsError reason
    | none =>
      if check_updates && nvcmpOutput != "" then
        .outdated ("'" ++ repo.name ++ "' has new version")
      else
        .ok

/-! Spec-side policy validator (§4.4 of the specification): the ordered
rule list — default branch `main`, not a template, issues enabled, then
wiki, pages, projects and discussions disabled — where the first failing
rule's reason is the outcome. -/

/-- The specification's ordered rule list: `(fails, reason)` pairs. -/
def policyRules (r : Repository) : List (Bool × String) :=
  [ (r.default_branch != "main", "Default branch must me 'main' not " ++ r.default_branch),
    (r.is_template, "Repository should not be a template"),
    (!r.has_issues, "Issues must be enabled"),
    (r.has_wiki, "Wiki must be disabled"),
    (r.has_pages, "Pages must be disabled"),
    (r.has_projects, "Projects must be disabled"),
    (r.has_discussions, "Discussions must be disabled") ]

/-- First failing rule wins; `none` when every rule passes. -/
def firstViolation (r : Repository) : Option String :=
  ((policyRules r).find? (·.1)).map (·.2)

/-! ## Clone synchronizer (cmd_scan.py lines 31-49)
Each git invocation is `(working directory, argv)`: the update path runs
inside the existing working copy, the clone path runs from the scan's own
directory (`none`). -/

/-- Python `os.path.join(args.cache_dir, repo.name)`. -/
def pathJoin (a b : String) : String := a ++ "/" ++ b

/-- The git commands `inspect_package` issues for one repository, by
whether `os.path.exists(git_dir)`. -/
def syncCommands (working_copy_exists : Bool) (cache_dir : String)
    (repo : Repository) : List (Option String × List String) :=
  let git_dir := pathJoin cache_dir repo.name
  if working_copy_exists then
    [ (some git_dir, ["git", "fetch", "-q", "origin"]),
      (some git_dir, ["git", "reset", "-q", "--hard", "origin/" ++ repo.default_branch]),
      (some git_dir, ["git", "clean", "-q", "-xd", "--force"]) ]
  else
    [ (none, ["git", "clone", "--depth", "1", "--branch", repo.default_branch,
              repo.clone_url, git_dir]) ]

/-- Spec-side (§4.3), existing working copy: fetch the remote, hard-reset
the local branch to `origin/<default_branch>`, force-clean untracked and
ignored files — three commands, in that order, inside the working copy. -/
def specSyncExisting (cache_dir : String) (repo : Repository) :
    List (Option String × List String) :=
  [ (some (pathJoin cache_dir repo.name), ["git", "fetch", "-q", "origin"]),
    (some (pathJoin cache_dir repo.name),
      ["git", "reset", "-q", "--hard", "origin/" ++ repo.default_branch]),
    (some (pathJoin cache_dir repo.name), ["git", "clean", "-q", "-xd", "--force"]) ]

/-- Spec-side (§4.3), absent working copy: a single shallow depth-1 clone
of only the default branch into `cacheDir/descriptor.name`. -/
def specSyncClone (cache_dir : String) (repo : Repository) :
    List (Option String × List String) :=
  [ (none, ["git", "clone", "--depth", "1", "--branch", repo.default_branch,
            repo.clone_url, pathJoin cache_dir repo.name]) ]

/-! ## The fail-fast scan loop (cmd_scan.py lines 92-99)
`run` iterates the cached repository list in order; the first
`PkgSettingsException` or `PkgOutdatedException` is logged and the process
exits with status 1; otherwise the loop finishes and the scan exits 0.
The model returns the exit status and the names of the repositories
`inspect_package` was invoked on, in order. -/

/-- Does this outcome correspond to one of the two caught exceptions? -/
def isFailure : InspectOutcome → Bool
  | .settingsError _ => true
  | .outdated _ => true
  | _ => false

/-- The scan loop: `nv` gives each repository's `nvcmp` output. -/
def scanLoop (internal : List String) (cs cu : Bool)
    (nv : Repository → String) : List Repository → Nat × List String
  | [] => (0, [])
  | r :: rest =>
    if isFailure (inspect_package internal cs cu r (nv r)) then
      (1, [r.name])
    else
      let next := scanLoop internal cs cu nv rest
      (next.1, r.name :: next.2)

/-! ## JSON serialization of descriptors
`json.dump([asdict(it) for it in repos], fd)` (cmd_scan.py line 90) with
`json.dump`'s defaults: item separator `", "`, key separator `": "`,
`ensure_ascii=True`, keys in `asdict`'s (declaration) order. -/

/-- The character at position `n`, or the default past the end. -/
def nthCharD : List Char → Nat → Char → Char
  | [], _, d => d
  | c :: _, 0, _ => c
  | _ :: cs, n + 1, d => nthCharD cs n d

/-- One lower-case hex digit. -/
def hexDigit (n : Nat) : Char := nthCharD "0123456789abcdef".data n 'f'

/-- Four hex digits, as in JSON `\uXXXX` escapes. -/
def hex4 (n : Nat) : String :=
  ⟨[hexDigit (n / 4096 % 16), hexDigit (n / 256 % 16),
    hexDigit (n / 16 % 16), hexDigit (n % 16)]⟩

/-- The `json.dump` ASCII string escaping of one character: `"`, `\` and the
named control escapes, `\uXXXX` for other control or non-ASCII characters
(surrogate pairs above the BMP), everything in `0x20`-`0x7e` verbatim. -/
def escapeChar (c : Char) : String :=
  if c = '"' then "\\\""
  else if c = '\\' then "\\\\"
  else if c = '\n' then "\\n"
  else if c = '\t' then "\\t"
  else if c = '\r' then "\\r"
  else if c = '\x08' then "\\b"
  else if c = '\x0c' then "\\f"
  else if c.toNat < 0x20 then "\\u" ++ hex4 c.toNat
  else if c.toNat < 0x7f then String.singleton c
  else if c.toNat ≤ 0xffff then "\\u" ++ hex4 c.toNat
  else
    "\\u" ++ hex4 (0xd800 + (c.toNat - 0x10000) / 0x400) ++
    "\\u" ++ hex4 (0xdc00 + (c.toNat - 0x10000) % 0x400)

/-- Escape every character of a string body. -/
def escapeList : List Char → List Char
  | [] => []
  | c :: cs => (escapeChar c).data ++ escapeList cs

/-- A JSON string literal. -/
def jsonStr (s : String) : String := ⟨'"' :: (escapeList s.data ++ ['"'])⟩

/-- A JSON boolean. -/
def jsonBool (b : Bool) : String := if b then "true" else "false"

/-- One decimal digit. -/
def decDigit (n : Nat) : Char := nthCharD "0123456789".data n '9'

/-- Decimal digits of `n`, fuel-structured so the kernel can evaluate it. -/
def natDigitsGo : Nat → Nat → List Char
  | 0, _ => []
  | fuel + 1, n =>
    if n < 10 then [decDigit n]
    else natDigitsGo fuel (n / 10) ++ [decDigit (n % 10)]

/-- A JSON number for a non-negative integer field. -/
def natRepr (n : Nat) : String := ⟨natDigitsGo (n + 1) n⟩

/-- The text `json.dump` writes for one `asdict(repo)` dictionary: one JSON object, keys in declaration order,
`json.dump`'s default separators. -/
def descriptorJson (r : Repository) : String :=
  "\x7b\"name\": " ++ jsonStr r.name ++
  ", \"private\": " ++ jsonBool r.«private» ++
  ", \"archived\": " ++ jsonBool r.archived ++
  ", \"is_template\": " ++ jsonBool r.is_template ++
  ", \"clone_url\": " ++ jsonStr r.clone_url ++
  ", \"default_branch\": " ++ jsonStr r.default_branch ++
  ", \"has_issues\": " ++ jsonBool r.has_issues ++
  ", \"has_wiki\": " ++ jsonBool r.has_wiki ++
  ", \"has_pages\": " ++ jsonBool r.has_pages ++
  ", \"has_projects\": " ++ jsonBool r.has_projects ++
  ", \"has_discussions\": " ++ jsonBool r.has_discussions ++
  ", \"created_at\": " ++ jsonStr r.created_at ++
  ", \"updated_at\": " ++ jsonStr r.updated_at ++
  ", \"open_issues_count\": " ++ natRepr r.open_issues_count ++ "\x7d"

/-- The `json.dump` rendering of a list: items joined by `", "`. -/
def joinComma : List String → String
  | [] => ""
  | [s] => s
  | s :: rest => s ++ ", " ++ joinComma rest

/-- The exact text `json.dump([asdict(it) for it in repos], fd)` writes to
`{cacheDir}/repos.jsonl`: a single JSON array. -/
def dumpRepos (repos : List Repository) : String :=
  "[" ++ joinComma (repos.map descriptorJson) ++ "]"

/-- What the specification describes instead (§4.2, §6): line-delimited
records, exactly one serialized descriptor JSON object per line. -/
def specLineDelimited (repos : List Repository) : String :=
  (repos.map (fun r => descriptorJson r ++ "\n")).foldl (· ++ ·) ""

/-! ## The cache phase of `run` (cmd_scan.py lines 79-93)
State of the cache directory: does `{cacheDir}` exist, and the content of
`{cacheDir}/repos.jsonl` if that file exists.  `fetch` is the outcome of
`github.fetch_repos()` — `none` when it raises a transport error.  Note
the order of effects in the source: `mkdir`, then `open(repos_file, "w")`
(which creates the empty file), and only then the fetch. -/

structure CacheFS where
  cacheDirExists : Bool
  reposFile : Option String
deriving DecidableEq, Repr

inductive CacheOutcome where
  | usedCache
  | wroteFresh
  | fetchFailed
deriving DecidableEq, Repr

/-- Lines 79-93 of `run`: clear the cache when asked, then either keep the
existing cache (the directory's presence is the sole signal) or create the
directory, create the file, fetch, and write the serialized list. -/
def run_cache_phase (clear_cache : Bool) (fs : CacheFS)
    (fetch : Option (List Repository)) : CacheFS × CacheOutcome :=
  let fs := if clear_cache then { cacheDirExists := false, reposFile := none } else fs
  if fs.cacheDirExists then
    (fs, .usedCache)
  else
    match fetch with
    | none => ({ cacheDirExists := true, reposFile := some "" }, .fetchFailed)
    | some repos =>
      ({ cacheDirExists := true, reposFile := some (dumpRepos repos) }, .wroteFresh)

/-! ## The directory client (github.py lines 31-123) -/

/-- The mutable client state `GitHub.__init__` builds: class defaults
`org = "zig-devel"`, `token = None`, then the two guarded assignments. -/
structure GitHubClient where
  org : String
  token : Option String
deriving DecidableEq, Repr

/-- The constructor `GitHub.__init__(self, *, org, token)` (github.py lines 39-43),
exactly as written: both guards test `org is not None`. -/
def githubInit (org token : Option String) : GitHubClient :=
  let s : GitHubClient := { org := "zig-devel", token := none }
  let s := match org with
           | some o => { s with org := o }
           | none => s
  match org with
  | some _ => { s with token := token }
  | none => s

/-- One HTTP response for a page request: its status code, and the parsed
JSON body when the body is a JSON array (`none` when `resp.json()` would
fail). -/
structure Page where
  status : Nat
  body : Option (List Repository)

/-- One page request as issued by `fetch_repos`: the endpoint, the query
parameters `per_page` and `page`, and the `Authorization` header if any. -/
structure Request where
  url : String
  per_page : Nat
  page : Nat
  authorization : Option String
deriving DecidableEq, Repr

inductive FetchResult where
  | success (repos : List Repository)
  | httpError (status : Nat)
  | jsonError
  | fuelExhausted
deriving DecidableEq, Repr

/-- The header dict: `{"Authorization": f"Bearer {token}"}` when a token
is set, empty otherwise (github.py line 89). -/
def authHeader (token : Option String) : Option String :=
  token.map (fun t => "Bearer " ++ t)

/-- The request `fetch_repos` issues for page `p`. -/
def mkRequest (org : String) (token : Option String) (p : Nat) : Request :=
  { url := "https://api.github.com/orgs/" ++ org ++ "/repos",
    per_page := 100, page := p, authorization := authHeader token }

/-- The `while True` loop of `fetch_repos`, fuel-indexed; returns the
requests issued, in order, and the outcome.  `resp.raise_for_status()`
raises exactly for status codes in `[400, 600)`; `len(data) <= 0` stops
the loop; otherwise the page's descriptors are appended and the page
counter incremented. -/
def fetch_repos_go (org : String) (token : Option String) (pages : Nat → Page) :
    Nat → Nat → List Repository → List Request × FetchResult
  | 0, _, _ => ([], .fuelExhausted)
  | fuel + 1, page, acc =>
    let req := mkRequest org token page
    let resp := pages page
    if 400 ≤ resp.status ∧ resp.status < 600 then
      ([req], .httpError resp.status)
    else
      match resp.body with
      | none => ([req], .jsonError)
      | some data =>
        if data.length ≤ 0 then
          ([req], .success acc)
        else
          let next := fetch_repos_go org token pages fuel (page + 1) (acc ++ data)
          (req :: next.1, next.2)

/-- The method `GitHub.fetch_repos(self)`: start at page 1 with an empty accumulator. -/
def fetch_repos (org : String) (token : Option String) (pages : Nat → Page)
    (fuel : Nat) : List Request × FetchResult :=
  fetch_repos_go org token pages fuel 1 []

/-- Consecutive page numbers `start, start+1, ...` (`count` of them). -/
def pageRange : Nat → Nat → List Nat
  | _, 0 => []
  | s, k + 1 => s :: pageRange (s + 1) k

/-- The body of a page whose JSON parsed to an array. -/
def pageData (pg : Page) : List Repository := pg.body.getD []

/-- The concatenation of the bodies of pages `s, s+1, ..., s+k-1`. -/
def collectBodies (pages : Nat → Page) : Nat → Nat → List Repository
  | _, 0 => []
  | s, k + 1 => pageData (pages s) ++ collectBodies pages (s + 1) k


/-! ## Sample data for concrete witnesses and counterexamples -/

/-- A policy-compliant repository descriptor. -/
def sampleRepoA : Repository :=
  { name := "zlib", «private» := false, archived := false, is_template := false,
    clone_url := "https://github.com/zig-devel/zlib.git", default_branch := "main",
    has_issues := true, has_wiki := false, has_pages := false, has_projects := false,
    has_discussions := false, created_at := "2024-01-01T00:00:00Z",
    updated_at := "2024-06-01T00:00:00Z", open_issues_count := 2 }

/-- A second policy-compliant repository descriptor. -/
def sampleRepoB : Repository :=
  { name := "libpng", «private» := false, archived := false, is_template := false,
    clone_url := "https://github.com/zig-devel/libpng.git", default_branch := "main",
    has_issues := true, has_wiki := false, has_pages := false, has_projects := false,
    has_discussions := false, created_at := "2024-02-02T00:00:00Z",
    updated_at := "2024-06-02T00:00:00Z", open_issues_count := 0 }

/-- A repository violating the default-branch rule (and nothing else). -/
def sampleRepoBadBranch : Repository :=
  { name := "badbranch", «private» := false, archived := false, is_template := false,
    clone_url := "https://github.com/zig-devel/badbranch.git", default_branch := "master",
    has_issues := true, has_wiki := false, has_pages := false, has_projects := false,
    has_discussions := false, created_at := "2024-03-03T00:00:00Z",
    updated_at := "2024-06-03T00:00:00Z", open_issues_count := 1 }

/-- A page function answering every request with HTTP 300 and an empty
JSON array body (a non-2xx response `raise_for_status` lets through). -/
def samplePages300 : Nat → Page := fun _ => { status := 300, body := some [] }

/-- A page function: one page of data, then the empty page. -/
def samplePagesOk : Nat → Page := fun i =>
  if i = 1 then { status := 200, body := some [sampleRepoA] }
  else { status := 200, body := some [] }

/-- A page function failing every request with HTTP 500. -/
def samplePagesErr : Nat → Page := fun _ => { status := 500, body := none }

/-! ## Generic string and list helpers -/

lemma str_data_append (s t : String) : (s ++ t).data = s.data ++ t.data := by
  cases s; cases t; rfl

lemma str_data_inj {s t : String} (h : s.data = t.data) : s = t := by
  cases s; cases t; exact congrArg String.mk h

lemma span_exact {p : Char → Bool} (a : List Char) (x : Char) (t : List Char)
    (ha : ∀ c ∈ a, p c = true) (hx : p x = false) :
    (a ++ x :: t).takeWhile p = a ∧ (a ++ x :: t).dropWhile p = x :: t := by
  induction a with
  | nil => simp [List.takeWhile_cons, List.dropWhile_cons, hx]
  | cons c cs ih =>
    have hc : p c = true := ha c (by simp)
    have ih' := ih (fun c hm => ha c (by simp [hm]))
    simp [List.takeWhile_cons, List.dropWhile_cons, hc, ih'.1, ih'.2]

/-! ## Facts about the number language and suffix stripping -/

lemma isNumL_all_digits {l : List Char} (h : isNumL l = true) :
    ∀ c ∈ l, isDigitB c = true := by
  match l with
  | [] => simp [isNumL] at h
  | [c] =>
    intro x hx
    simp at hx
    subst hx
    simpa [isNumL] using h
  | c :: c2 :: cs =>
    simp only [isNumL, Bool.and_eq_true, List.all_eq_true] at h
    intro x hx
    rcases List.mem_cons.mp hx with rfl | hx'
    · unfold isDigitB; unfold isNonZeroDigitB at h
      have := h.1
      simp only [Bool.and_eq_true, decide_eq_true_eq] at this ⊢
      omega
    · exact h.2 x hx'

lemma digit_ne_dash {c : Char} (h : isDigitB c = true) : c ≠ '-' := by
  intro rfl_h
  subst rfl_h
  simp [isDigitB] at h

lemma digit_not_dash_mem {l : List Char} (h : ∀ c ∈ l, isDigitB c = true) : '-' ∉ l := by
  intro hm
  exact digit_ne_dash (h _ hm) rfl

lemma isNumL_eq_false_of_dash {l : List Char} (h : '-' ∈ l) : isNumL l = false := by
  rcases hb : isNumL l with _ | _
  · rfl
  · exact absurd h (digit_not_dash_mem (isNumL_all_digits hb))

lemma stripL_skip (pre rest : List Char) (hpre : ∀ c ∈ pre, c ≠ '-') :
    stripL (pre ++ rest) = pre ++ stripL rest := by
  induction pre with
  | nil => rfl
  | cons c cs ih =>
    have hc : c ≠ '-' := hpre c (by simp)
    have : (c == '-') = false := by simpa using hc
    simp [stripL, this, ih (fun x hx => hpre x (by simp [hx]))]

lemma stripL_dash_num (num : List Char) (h : isNumL num = true) :
    stripL ('-' :: num) = [] := by
  simp [stripL, h]

/-! ## Inversion of the version grammar -/

lemma parseNum_eq_some {cs a r : List Char} (h : parseNum cs = some (a, r)) :
    isNumL a = true ∧ cs = a ++ r ∧ r = cs.dropWhile isDigitB ∧ a = cs.takeWhile isDigitB := by
  unfold parseNum at h
  split at h
  · rename_i hnum
    injection h with h'
    injection h' with h1 h2
    subst h1; subst h2
    exact ⟨hnum, (List.takeWhile_append_dropWhile (p := isDigitB) (l := cs)).symm, rfl, rfl⟩
  · exact absurd h (by simp)

lemma parseNum_of_decomp {a : List Char} (x : Char) (t : List Char)
    (ha : isNumL a = true) (hx : isDigitB x = false) :
    parseNum (a ++ x :: t) = some (a, x :: t) := by
  have hd := span_exact a x t (isNumL_all_digits ha) hx
  unfold parseNum
  rw [hd.1, hd.2]
  simp [ha]

lemma grammarL_iff (cs : List Char) : grammarL cs = true ↔
    ∃ a b c d : List Char, isNumL a = true ∧ isNumL b = true ∧ isNumL c = true ∧
      isNumL d = true ∧ cs = a ++ '.' :: (b ++ '.' :: (c ++ '-' :: d)) := by
  constructor
  · intro h
    unfold grammarL at h
    split at h
    · rename_i a r1 hp1
      obtain ⟨ha, hcs, -, -⟩ := parseNum_eq_some hp1
      split at h
      · rename_i b r2 hp2
        obtain ⟨hb, hr1, -, -⟩ := parseNum_eq_some hp2
        split at h
        · rename_i c r3 hp3
          obtain ⟨hc, hr2, -, -⟩ := parseNum_eq_some hp3
          exact ⟨a, b, c, r3, ha, hb, hc, h, by rw [hcs, hr1, hr2]⟩
        · exact absurd h (by simp)
      · exact absurd h (by simp)
    · exact absurd h (by simp)
  · rintro ⟨a, b, c, d, ha, hb, hc, hd, rfl⟩
    unfold grammarL
    simp only [parseNum_of_decomp '.' _ ha (by decide),
      parseNum_of_decomp '.' _ hb (by decide),
      parseNum_of_decomp '-' _ hc (by decide)]
    exact hd

lemma versionGrammar_iff (s : String) : versionGrammar s = true ↔
    ∃ a b c d : String, isNumStr a = true ∧ isNumStr b = true ∧ isNumStr c = true ∧
      isNumStr d = true ∧ s = a ++ "." ++ b ++ "." ++ c ++ "-" ++ d := by
  unfold versionGrammar
  rw [grammarL_iff]
  constructor
  · rintro ⟨A, B, C, D, hA, hB, hC, hD, hdecomp⟩
    refine ⟨⟨A⟩, ⟨B⟩, ⟨C⟩, ⟨D⟩, hA, hB, hC, hD, ?_⟩
    apply str_data_inj
    simp only [str_data_append, hdecomp]
    simp [List.append_assoc]
  · rintro ⟨a, b, c, d, ha, hb, hc, hd, rfl⟩
    refine ⟨a.data, b.data, c.data, d.data, ha, hb, hc, hd, ?_⟩
    simp only [str_data_append]
    simp [List.append_assoc]

lemma pre_no_dash {A B C : List Char} (hA : isNumL A = true) (hB : isNumL B = true)
    (hC : isNumL C = true) : ∀ c ∈ A ++ '.' :: (B ++ '.' :: C), c ≠ '-' := by
  intro c hm
  simp only [List.mem_append, List.mem_cons] at hm
  rcases hm with h1 | h1 | h1 | h1 | h1
  · exact digit_ne_dash (isNumL_all_digits hA c h1)
  · subst h1; decide
  · exact digit_ne_dash (isNumL_all_digits hB c h1)
  · subst h1; decide
  · exact digit_ne_dash (isNumL_all_digits hC c h1)

/-! ## Policy validator: source order equals the specification's rule list -/

lemma settingsCheck_eq_firstViolation (r : Repository) :
    settingsCheck r = firstViolation r := by
  unfold settingsCheck firstViolation policyRules
  cases hb : (r.default_branch != "main") <;>
  cases h2 : r.is_template <;>
  cases h3 : r.has_issues <;>
  cases h4 : r.has_wiki <;>
  cases h5 : r.has_pages <;>
  cases h6 : r.has_projects <;>
  cases h7 : r.has_discussions <;>
  simp [List.find?, hb, h2, h3, h4, h5, h6, h7]

lemma branch_reason_distinct (s : String) :
    ("Default branch must me 'main' not " ++ s) ≠ "Repository should not be a template" ∧
    ("Default branch must me 'main' not " ++ s) ≠ "Issues must be enabled" ∧
    ("Default branch must me 'main' not " ++ s) ≠ "Wiki must be disabled" ∧
    ("Default branch must me 'main' not " ++ s) ≠ "Pages must be disabled" ∧
    ("Default branch must me 'main' not " ++ s) ≠ "Projects must be disabled" ∧
    ("Default branch must me 'main' not " ++ s) ≠ "Discussions must be disabled" := by
  refine ⟨?_, ?_, ?_, ?_, ?_, ?_⟩ <;>
    (intro hh; have := congrArg (fun q => q.data.take 2) hh; simp [str_data_append] at this)

/-! ## Pagination: the loop under well-behaved and failing page responses -/

lemma fetch_go_success (org : String) (token : Option String) (pages : Nat → Page) :
    ∀ (k page fuel : Nat) (acc : List Repository),
    (∀ i, page ≤ i → i < page + k →
      (pages i).status < 400 ∧ ∃ data, (pages i).body = some data ∧ data ≠ []) →
    (pages (page + k)).status < 400 →
    (pages (page + k)).body = some [] →
    k < fuel →
    fetch_repos_go org token pages fuel page acc =
      ((pageRange page (k + 1)).map (mkRequest org token),
        .success (acc ++ collectBodies pages page k)) := by
  intro k
  induction k with
  | zero =>
    intro page fuel acc hok hst hbody hfuel
    match fuel, hfuel with
    | fuel + 1, _ =>
      simp only [Nat.add_zero] at hst hbody
      have hcond : ¬(400 ≤ (pages page).status ∧ (pages page).status < 600) :=
        fun hc => absurd hc.1 (Nat.not_le.mpr hst)
      simp [fetch_repos_go, pageRange, collectBodies, hbody, hcond]
  | succ k ih =>
    intro page fuel acc hok hst hbody hfuel
    match fuel, hfuel with
    | fuel + 1, hfuel =>
      obtain ⟨hst1, data, hb1, hne1⟩ := hok page (Nat.le_refl _) (by omega)
      have hlen : ¬data.length ≤ 0 := by
        simpa [List.length_eq_zero] using hne1
      have ih' := ih (page + 1) fuel (acc ++ data)
        (fun i h1 h2 => hok i (by omega) (by omega))
        (by rw [show page + 1 + k = page + (k + 1) by omega]; exact hst)
        (by rw [show page + 1 + k = page + (k + 1) by omega]; exact hbody)
        (by omega)
      simp only [fetch_repos_go, hb1,
        if_neg (fun hc : 400 ≤ (pages page).status ∧ (pages page).status < 600 =>
          absurd hc.1 (Nat.not_le.mpr hst1)),
        if_neg hlen, ih']
      simp [pageRange, collectBodies, pageData, hb1, List.append_assoc]

lemma fetch_go_error (org : String) (token : Option String) (pages : Nat → Page) :
    ∀ (k page fuel : Nat) (acc : List Repository),
    (∀ i, page ≤ i → i < page + k →
      (pages i).status < 400 ∧ ∃ data, (pages i).body = some data ∧ data ≠ []) →
    400 ≤ (pages (page + k)).status →
    (pages (page + k)).status < 600 →
    k < fuel →
    fetch_repos_go org token pages fuel page acc =
      ((pageRange page (k + 1)).map (mkRequest org token),
        .httpError (pages (page + k)).status) := by
  intro k
  induction k with
  | zero =>
    intro page fuel acc hok hst1 hst2 hfuel
    match fuel, hfuel with
    | fuel + 1, _ =>
      simp only [Nat.add_zero] at hst1 hst2
      simp [fetch_repos_go, pageRange, if_pos (And.intro hst1 hst2)]
  | succ k ih =>
    intro page fuel acc hok hst1 hst2 hfuel
    match fuel, hfuel with
    | fuel + 1, hfuel =>
      obtain ⟨hstp, data, hb1, hne1⟩ := hok page (Nat.le_refl _) (by omega)
      have hlen : ¬data.length ≤ 0 := by
        simpa [List.length_eq_zero] using hne1
      have ih' := ih (page + 1) fuel (acc ++ data)
        (fun i h1 h2 => hok i (by omega) (by omega))
        (by rw [show page + 1 + k = page + (k + 1) by omega]; exact hst1)
        (by rw [show page + 1 + k = page + (k + 1) by omega]; exact hst2)
        (by omega)
      simp only [fetch_repos_go, hb1,
        if_neg (fun hc : 400 ≤ (pages page).status ∧ (pages page).status < 600 =>
          absurd hc.1 (Nat.not_le.mpr hstp)),
        if_neg hlen, ih']
      rw [show page + 1 + k = page + (k + 1) by omega]
      simp [pageRange]

/-! ## The serialized cache is newline-free -/

lemma nthCharD_ne {x : Char} :
    ∀ (l : List Char) (n : Nat) (d : Char), x ∉ l → x ≠ d → nthCharD l n d ≠ x := by
  intro l
  induction l with
  | nil => intro n d _ hd; cases n <;> exact fun hh => hd hh.symm
  | cons c cs ih =>
    intro n d hl hd
    cases n with
    | zero =>
      intro hh
      simp only [nthCharD] at hh
      exact hl (by simp [hh])
    | succ n =>
      simp only [nthCharD]
      exact ih n d (fun hm => hl (by simp [hm])) hd

lemma hexDigit_ne_newline (n : Nat) : hexDigit n ≠ '\n' :=
  nthCharD_ne _ n 'f' (by decide) (by decide)

lemma decDigit_ne_newline (n : Nat) : decDigit n ≠ '\n' :=
  nthCharD_ne _ n '9' (by decide) (by decide)

lemma hex4_no_newline (n : Nat) : '\n' ∉ (hex4 n).data := by
  unfold hex4
  intro hm
  simp only [List.mem_cons, List.not_mem_nil, or_false] at hm
  rcases hm with h | h | h | h <;> exact hexDigit_ne_newline _ h.symm

lemma u_escape_no_newline (n : Nat) : '\n' ∉ ("\\u" ++ hex4 n).data := by
  rw [str_data_append]
  intro hm
  rcases List.mem_append.mp hm with h | h
  · exact absurd h (by decide)
  · exact absurd h (hex4_no_newline n)

lemma escapeChar_no_newline (c : Char) : '\n' ∉ (escapeChar c).data := by
  unfold escapeChar
  split_ifs with h1 h2 h3 h4 h5 h6 h7 h8 h9 h10
  case _ => decide
  case _ => decide
  case _ => decide
  case _ => decide
  case _ => decide
  case _ => decide
  case _ => decide
  case _ => exact u_escape_no_newline _
  case _ =>
    intro hm
    have hd : (String.singleton c).data = [c] := rfl
    rw [hd] at hm
    simp only [List.mem_singleton] at hm
    exact h3 hm.symm
  case _ => exact u_escape_no_newline _
  case _ =>
    intro hm
    rw [str_data_append, str_data_append, str_data_append] at hm
    rcases List.mem_append.mp hm with h | h
    · rcases List.mem_append.mp h with h' | h'
      · rcases List.mem_append.mp h' with h'' | h''
        · exact absurd h'' (by decide)
        · exact absurd h'' (hex4_no_newline _)
      · exact absurd h' (by decide)
    · exact absurd h (hex4_no_newline _)

lemma escapeList_no_newline (l : List Char) : '\n' ∉ escapeList l := by
  induction l with
  | nil => simp [escapeList]
  | cons c cs ih =>
    simp only [escapeList]
    intro hm
    rcases List.mem_append.mp hm with h | h
    · exact escapeChar_no_newline c h
    · exact ih h

lemma jsonStr_no_newline (s : String) : '\n' ∉ (jsonStr s).data := by
  unfold jsonStr
  intro hm
  simp only [List.mem_cons] at hm
  rcases hm with hm | hm
  · exact absurd hm (by decide)
  · rcases List.mem_append.mp hm with h | h
    · exact escapeList_no_newline _ h
    · simp at h

lemma jsonBool_no_newline (b : Bool) : '\n' ∉ (jsonBool b).data := by
  cases b <;> decide

lemma natDigitsGo_no_newline (fuel n : Nat) : '\n' ∉ natDigitsGo fuel n := by
  induction fuel generalizing n with
  | zero => simp [natDigitsGo]
  | succ fuel ih =>
    simp only [natDigitsGo]
    split_ifs
    · intro hm
      simp only [List.mem_singleton] at hm
      exact decDigit_ne_newline n hm.symm
    · intro hm
      rcases List.mem_append.mp hm with h | h
      · exact ih _ h
      · simp only [List.mem_singleton] at h
        exact decDigit_ne_newline _ h.symm

lemma natRepr_no_newline (n : Nat) : '\n' ∉ (natRepr n).data :=
  natDigitsGo_no_newline (n + 1) n

lemma descriptorJson_no_newline (r : Repository) : '\n' ∉ (descriptorJson r).data := by
  unfold descriptorJson
  intro hm
  simp only [str_data_append, List.mem_append, or_assoc] at hm
  rcases hm with h|h|h|h|h|h|h|h|h|h|h|h|h|h|h|h|h|h|h|h|h|h|h|h|h|h|h|h|h <;>
    first
    | exact absurd h (by decide)
    | exact jsonStr_no_newline _ h
    | exact jsonBool_no_newline _ h
    | exact natRepr_no_newline _ h

lemma joinComma_no_newline :
    ∀ l : List String, (∀ s ∈ l, '\n' ∉ s.data) → '\n' ∉ (joinComma l).data := by
  intro l
  induction l with
  | nil => intro _; simp [joinComma]
  | cons s rest ih =>
    intro h
    cases rest with
    | nil =>
      simpa [joinComma] using h s (by simp)
    | cons s2 rs =>
      simp only [joinComma]
      intro hm
      rw [str_data_append, str_data_append] at hm
      rcases List.mem_append.mp hm with h' | h'
      · rcases List.mem_append.mp h' with h'' | h''
        · exact h s (by simp) h''
        · exact absurd h'' (by decide)
      · exact ih (fun q hq => h q (by simp [hq])) h'

/-! ## The claims -/

/-- C1 (counterexample): the cache store does not write line-delimited
records.  For two concrete descriptors the text written by
`json.dump([asdict(it) for it in repos], fd)` contains no newline at all,
while the specified line-delimited layout (one serialized descriptor JSON
object per line) would contain one; the two texts differ. -/
theorem cache_file_not_line_delimited :
    (dumpRepos [sampleRepoA, sampleRepoB]).data.contains '\n' = false ∧
    (specLineDelimited [sampleRepoA, sampleRepoB]).data.contains '\n' = true ∧
    dumpRepos [sampleRepoA, sampleRepoB] ≠ specLineDelimited [sampleRepoA, sampleRepoB] :=
  ⟨by decide, by decide, by decide⟩

/-- C1 (amended): for every repository list fetched when the cache
directory is absent, the cache store persists it at `{cacheDir}/repos.jsonl`
as a single JSON array written by one `json.dump` call — the whole file is
one line (the serialized text contains no newline), re-read wholesale by
one `json.load`, not record by record. -/
theorem cache_file_single_json_array :
    ∀ repos : List Repository, '\n' ∉ (dumpRepos repos).data ∧
      run_cache_phase false { cacheDirExists := false, reposFile := none } (some repos) =
        ({ cacheDirExists := true, reposFile := some (dumpRepos repos) }, .wroteFresh) := by
  intro repos
  constructor
  · unfold dumpRepos
    intro hm
    rw [str_data_append, str_data_append] at hm
    rcases List.mem_append.mp hm with h | h
    · rcases List.mem_append.mp h with h' | h'
      · exact absurd h' (by decide)
      · refine joinComma_no_newline _ ?_ h'
        intro s hs
        rcases List.mem_map.mp hs with ⟨r, -, rfl⟩
        exact descriptorJson_no_newline r
    · exact absurd h (by decide)
  · simp [run_cache_phase]

/-- C2: `check_versioning` performs its checks in source order — manifest
grammar validation, optional reference comparison, git-tag comparison,
version-tool state-file comparison, README first-line `@v` comparison,
install-line presence — each short-circuiting on failure (every sample
input below fails all later checks as well, yet only the earliest failure
is reported); and on the matching example — manifest `"2.0.0-1"`, tag
`"2.0.0-1"`, tracker upstream `"2.0.0"`, header `@v2.0.0`, install line
referencing `2.0.0-1.tar.gz` — it returns ok. -/
theorem check_versioning_order_and_example :
    check_versioning none "2.0.0-1" "2.0.0-1" "2.0.0"
      ["# mylib @v2.0.0", "",
       "zig fetch --save https://github.com/zig-devel/mylib/archive/refs/tags/2.0.0-1.tar.gz"]
      = .ok ∧
    check_versioning (some "9.9.9-9") "01.2.3-0" "8.8.8-8" "7.7.7" ["bad"]
      = .invalidManifestVersion "01.2.3-0" ∧
    check_versioning (some "9.9.9-9") "2.0.0-1" "8.8.8-8" "7.7.7" ["bad"]
      = .referenceMismatch "2.0.0-1" "9.9.9-9" ∧
    check_versioning none "2.0.0-1" "8.8.8-8" "7.7.7" ["bad"]
      = .tagMismatch "2.0.0-1" "8.8.8-8" ∧
    check_versioning none "2.0.0-1" "2.0.0-1" "7.7.7" ["bad"]
      = .nvcheckerMismatch "2.0.0" "7.7.7" ∧
    check_versioning none "2.0.0-1" "2.0.0-1" "2.0.0" ["bad"]
      = .readmeMismatch "2.0.0" "" ∧
    check_versioning none "2.0.0-1" "2.0.0-1" "2.0.0" ["# lib @v2.0.0"]
      = .installDocMismatch :=
  ⟨by decide, by decide, by decide, by decide, by decide, by decide, by decide⟩

/-- C3: the manifest version grammar accepts exactly the strings of the
form `{N}.{N}.{N}-{N}` where each `{N}` is `0` or a digit sequence with no
leading zero; `"1.2.3-0"` is accepted while `"01.2.3-0"`, `"1.2.3"` and
`"1.2.3-"` are rejected. -/
theorem version_grammar_exact :
    (∀ s : String, versionGrammar s = true ↔
      ∃ a b c d : String, isNumStr a = true ∧ isNumStr b = true ∧ isNumStr c = true ∧
        isNumStr d = true ∧ s = a ++ "." ++ b ++ "." ++ c ++ "-" ++ d) ∧
    versionGrammar "1.2.3-0" = true ∧
    versionGrammar "01.2.3-0" = false ∧
    versionGrammar "1.2.3" = false ∧
    versionGrammar "1.2.3-" = false :=
  ⟨versionGrammar_iff, by decide, by decide, by decide, by decide⟩

/-- C3 (witness): the characterization applied at `"1.2.3-0"`. -/
theorem version_grammar_exact_witness : versionGrammar "1.2.3-0" = true :=
  (version_grammar_exact.1 "1.2.3-0").mpr
    ⟨"1", "2", "3", "0", by decide, by decide, by decide, by decide, rfl⟩

/-- C4: for every manifest version `v` matching the grammar, the derived
upstream version `stripBuildSuffix v` is `v` with its trailing `-{N}`
build suffix removed (`v` reassembles as the stripped form, `-`, and a
valid number), and stripping is a left-inverse of appending `"-0"`. -/
theorem upstream_strip_left_inverse (v : String) (h : versionGrammar v = true) :
    (∃ n : String, isNumStr n = true ∧ v = stripBuildSuffix v ++ "-" ++ n) ∧
    stripBuildSuffix (v ++ "-0") = v := by
  obtain ⟨A, B, C, D, hA, hB, hC, hD, hdec⟩ := (grammarL_iff v.data).mp h
  have hv : v.data = (A ++ '.' :: (B ++ '.' :: C)) ++ '-' :: D := by
    rw [hdec]; simp [List.append_assoc]
  have hpre := pre_no_dash hA hB hC
  have hstrip : stripL v.data = A ++ '.' :: (B ++ '.' :: C) := by
    rw [hv, stripL_skip _ _ hpre, stripL_dash_num D hD, List.append_nil]
  constructor
  · refine ⟨⟨D⟩, hD, ?_⟩
    apply str_data_inj
    rw [str_data_append, str_data_append]
    have hs : (stripBuildSuffix v).data = stripL v.data := rfl
    rw [hs, hstrip, hv]
    simp
  · apply str_data_inj
    have hs : (stripBuildSuffix (v ++ "-0")).data = stripL ((v ++ "-0").data) := rfl
    rw [hs, str_data_append]
    have h2 : ("-0" : String).data = ['-', '0'] := rfl
    rw [h2, hv]
    have hfalse : isNumL (D ++ ['-', '0']) = false := isNumL_eq_false_of_dash (by simp)
    have hDdash : ∀ c ∈ D, c ≠ '-' := fun c hm => digit_ne_dash (isNumL_all_digits hD c hm)
    rw [List.append_assoc]
    rw [stripL_skip _ _ hpre]
    simp only [List.cons_append]
    rw [show stripL ('-' :: (D ++ ['-', '0'])) = '-' :: stripL (D ++ ['-', '0']) by
      simp [stripL, hfalse]]
    rw [stripL_skip _ _ hDdash, stripL_dash_num ['0'] (by decide), List.append_nil]

/-- C4 (witness): the theorem applied at the concrete version `"1.2.3-4"`. -/
theorem upstream_strip_left_inverse_witness :
    (∃ n : String, isNumStr n = true ∧
      ("1.2.3-4" : String) = stripBuildSuffix "1.2.3-4" ++ "-" ++ n) ∧
    stripBuildSuffix (("1.2.3-4" : String) ++ "-0") = "1.2.3-4" :=
  upstream_strip_left_inverse "1.2.3-4" (by decide)

/-- C5: an archived, private, or internal repository is skipped entirely
(neither policy nor freshness checks run); for every other repository the
policy rules are evaluated in the fixed order — default branch `"main"`,
not a template, issues enabled, then wiki, pages, projects, discussions
each disabled — the first failing rule wins with its single reason (the
seven reasons are pairwise distinct), and only when every rule passes does
the freshness outcome decide the result. -/
theorem inspect_package_skip_and_first_violation :
    ∀ (internal : List String) (cu : Bool) (repo : Repository) (nv : String),
    ((repo.archived = true ∨ repo.«private» = true ∨ repo.name ∈ internal) →
        inspect_package internal true cu repo nv = .skipped) ∧
    (repo.archived = false → repo.«private» = false → repo.name ∉ internal →
        inspect_package internal true cu repo nv =
          match firstViolation repo with
          | some reason => .settingsError reason
          | none =>
            if cu && nv != "" then .outdated ("'" ++ repo.name ++ "' has new version")
            else .ok) ∧
    ((policyRules repo).map (·.2)).Nodup := by
  intro internal cu repo nv
  refine ⟨?_, ?_, ?_⟩
  · intro h
    have hb : (!repo.is_active || internal.contains repo.name) = true := by
      rcases h with h | h | h
      · simp [Repository.is_active, h]
      · simp [Repository.is_active, h]
      · simp [List.contains]
        exact Or.inr h
    unfold inspect_package
    rw [hb]
    simp
  · intro ha hp hm
    have hact : repo.is_active = true := by simp [Repository.is_active, ha, hp]
    have hcont : internal.contains repo.name = false := by
      rcases hc : internal.contains repo.name
      · rfl
      · exact absurd (List.elem_iff.mp hc) hm
    simp only [inspect_package, hact, hcont, Bool.not_true, Bool.or_self,
      if_neg (by simp : ¬((false : Bool) = true))]
    simp [settingsCheck_eq_firstViolation repo]
  · have h := branch_reason_distinct repo.default_branch
    simp only [policyRules, List.map_cons, List.map_nil, List.nodup_cons, List.mem_cons,
      List.not_mem_nil, or_false]
    refine ⟨?_, ?_⟩
    · rintro (h1 | h1 | h1 | h1 | h1 | h1)
      · exact h.1 h1
      · exact h.2.1 h1
      · exact h.2.2.1 h1
      · exact h.2.2.2.1 h1
      · exact h.2.2.2.2.1 h1
      · exact h.2.2.2.2.2 h1
    · decide

/-- C6: the scan is fail-fast: when every repository before `r` in the
cached order raises nothing and `r` raises a settings or outdated
exception, the scan exits with status 1 having inspected exactly the
repositories up to and including `r` — none after `r` is evaluated. -/
theorem scan_fail_fast :
    ∀ (internal : List String) (cs cu : Bool) (nv : Repository → String)
      (pre : List Repository) (r : Repository) (rest : List Repository),
    (∀ p ∈ pre, isFailure (inspect_package internal cs cu p (nv p)) = false) →
    isFailure (inspect_package internal cs cu r (nv r)) = true →
    scanLoop internal cs cu nv (pre ++ r :: rest) = (1, pre.map (·.name) ++ [r.name]) := by
  intro internal cs cu nv pre r rest hpre hr
  induction pre with
  | nil => simp [scanLoop, hr]
  | cons p ps ih =>
    have hp : isFailure (inspect_package internal cs cu p (nv p)) = false :=
      hpre p (by simp)
    have ih' := ih (fun q hq => hpre q (by simp [hq]))
    simp [scanLoop, hp, ih']

/-- C6 (witness): a compliant repository, then one with default branch
`master`, then another compliant one: exit status 1, only the first two
inspected. -/
theorem scan_fail_fast_witness :
    scanLoop [".github", "toolset"] true true (fun _ => "")
      ([sampleRepoA] ++ sampleRepoBadBranch :: [sampleRepoB]) =
      (1, ["zlib", "badbranch"]) :=
  scan_fail_fast [".github", "toolset"] true true (fun _ => "")
    [sampleRepoA] sampleRepoBadBranch [sampleRepoB] (by decide) (by decide)

/-- C7: for every descriptor, Sync takes exactly one of two paths: with an
existing working copy at `cacheDir/name` it fetches, hard-resets to
`origin/<default_branch>` and force-cleans, in that order, inside the
working copy; with no working copy it performs a single shallow depth-1
clone of only the default branch into that directory. -/
theorem sync_exactly_two_paths :
    ∀ (cache_dir : String) (repo : Repository),
    syncCommands true cache_dir repo = specSyncExisting cache_dir repo ∧
    syncCommands false cache_dir repo = specSyncClone cache_dir repo := by
  intro d r
  exact ⟨rfl, rfl⟩

/-- C8 (counterexample): a non-2xx response is not always fatal — a page
answered with HTTP 300 and an empty JSON array body ends the fetch
successfully (`raise_for_status` raises only for 4xx/5xx). -/
theorem fetch_non2xx_not_fatal :
    (samplePages300 1).status = 300 ∧
    ¬(200 ≤ (samplePages300 1).status ∧ (samplePages300 1).status ≤ 299) ∧
    (fetch_repos "zig-devel" none samplePages300 5).2 = .success [] :=
  ⟨rfl, by decide, by decide⟩

/-- C8 (amended): FetchAll requests pages of fixed size 100 starting at
page 1 with consecutive page numbers, concatenating each page's
descriptors, and stops exactly when an empty page is returned; every page
request answered with a 4xx/5xx status (the statuses `raise_for_status`
raises for) aborts the whole fetch as a fatal error carrying no partial
result sequence. -/
theorem fetch_pagination_contract :
    (∀ (org : String) (token : Option String) (pages : Nat → Page) (n fuel : Nat),
      (∀ i, 1 ≤ i → i < 1 + n →
        (pages i).status < 400 ∧ ∃ data, (pages i).body = some data ∧ data ≠ []) →
      (pages (1 + n)).status < 400 →
      (pages (1 + n)).body = some [] →
      n < fuel →
      fetch_repos org token pages fuel =
        ((pageRange 1 (n + 1)).map (mkRequest org token),
          .success (collectBodies pages 1 n))) ∧
    (∀ (org : String) (token : Option String) (pages : Nat → Page) (n fuel : Nat),
      (∀ i, 1 ≤ i → i < 1 + n →
        (pages i).status < 400 ∧ ∃ data, (pages i).body = some data ∧ data ≠ []) →
      400 ≤ (pages (1 + n)).status →
      (pages (1 + n)).status < 600 →
      n < fuel →
      fetch_repos org token pages fuel =
        ((pageRange 1 (n + 1)).map (mkRequest org token),
          .httpError (pages (1 + n)).status)) := by
  constructor
  · intro org token pages n fuel hok hst hbody hfuel
    have h := fetch_go_success org token pages n 1 fuel [] hok hst hbody hfuel
    simpa [fetch_repos] using h
  · intro org token pages n fuel hok hst1 hst2 hfuel
    have h := fetch_go_error org token pages n 1 fuel [] hok hst1 hst2 hfuel
    simpa [fetch_repos] using h

/-- C8 (witness): both branches at concrete page functions — one data page
then the empty page yields the concatenated result after requests for
pages 1 and 2; an HTTP 500 on the first page aborts with that status. -/
theorem fetch_pagination_contract_witness :
    fetch_repos "zig-devel" none samplePagesOk 3 =
      ((pageRange 1 2).map (mkRequest "zig-devel" none),
        .success (collectBodies samplePagesOk 1 1)) ∧
    fetch_repos "zig-devel" (some "tok") samplePagesErr 3 =
      ((pageRange 1 1).map (mkRequest "zig-devel" (some "tok")),
        .httpError (samplePagesErr (1 + 0)).status) :=
  ⟨fetch_pagination_contract.1 "zig-devel" none samplePagesOk 1 3
      (fun i h1 h2 => by
        have hi : i = 1 := by omega
        subst hi
        exact ⟨by decide, [sampleRepoA], rfl, by simp⟩)
      (by decide) (by decide) (by decide),
   fetch_pagination_contract.2 "zig-devel" (some "tok") samplePagesErr 0 3
      (fun i h1 h2 => absurd h2 (by omega))
      (by decide) (by decide) (by decide)⟩

/-- C9: the constructor drops a supplied token whenever `org` is `None` —
both guards in `__init__` test `org is not None` — so the client built
with `org=None, token="secret"` stores no token and its page requests
carry no Authorization header, although the claim (and the spec) say a
supplied token is always attached; with an org supplied the token is
stored, showing the guard asymmetry. -/
theorem github_init_token_guard_bug :
    (githubInit none (some "secret")).token = none ∧
    (githubInit (some "zig-devel") (some "secret")).token = some "secret" ∧
    ((fetch_repos (githubInit none (some "secret")).org
        (githubInit none (some "secret")).token samplePages300 3).1.map
      (fun req => req.authorization)) = [none] :=
  ⟨rfl, rfl, by decide⟩

/-- C10: when the cache directory is absent and the fetch fails, the run
leaves the freshly created cache directory and an empty `repos.jsonl`
behind (the file is opened for writing before the fetch runs), and any
subsequent scan sees the directory, treats the broken cache as valid and
does not refetch. -/
theorem cache_left_broken_on_fetch_failure :
    ∀ fs : CacheFS, fs.cacheDirExists = false →
    (run_cache_phase false fs none).2 = .fetchFailed ∧
    (run_cache_phase false fs none).1 = { cacheDirExists := true, reposFile := some "" } ∧
    (∀ fetch2 : Option (List Repository),
      run_cache_phase false (run_cache_phase false fs none).1 fetch2 =
        ((run_cache_phase false fs none).1, .usedCache)) := by
  intro fs h
  refine ⟨?_, ?_, ?_⟩ <;> simp [run_cache_phase, h]

/-- C10 (witness): the theorem applied to the empty initial filesystem. -/
theorem cache_left_broken_on_fetch_failure_witness :
    (run_cache_phase false { cacheDirExists := false, reposFile := none } none).2 = .fetchFailed ∧
    (run_cache_phase false { cacheDirExists := false, reposFile := none } none).1 =
      { cacheDirExists := true, reposFile := some "" } ∧
    (∀ fetch2 : Option (List Repository),
      run_cache_phase false
          (run_cache_phase false { cacheDirExists := false, reposFile := none } none).1 fetch2 =
        ((run_cache_phase false { cacheDirExists := false, reposFile := none } none).1,
          .usedCache)) :=
  cache_left_broken_on_fetch_failure { cacheDirExists := false, reposFile := none } rfl

end ZigDevel
